import Mathlib

/-!
Shallow embedding of the edge safety pipeline of the isoguard repository:
the AI inference engine (src/edge/services/ai_inference.py), the camera
orchestrator (src/edge/services/camera_manager.py), the alert dispatcher
(src/edge/services/alert_service.py), the cloud sync queue
(src/edge/services/cloud_sync.py) and the evidence store retention sweep
(src/edge/services/local_storage.py).

Machine reals of the source (Python floats over small decimal literals)
are modelled exactly as rationals; datetimes are modelled as rational
day counts (integer part = calendar day, fractional part = time of day)
or as plain rational timestamps where only differences matter.
-/

namespace IsoGuard

/-- A polygon vertex, the dict entries x and y of a zone polygon. -/
structure Pt where
  x : Int
  y : Int
deriving DecidableEq, Repr

/-- A bounding box, the list entries bbox[0], bbox[1], bbox[2], bbox[3]. -/
structure BBox where
  x1 : Int
  y1 : Int
  x2 : Int
  y2 : Int
deriving DecidableEq, Repr

/-- The Detection dataclass of ai_inference.py. -/
structure Detection where
  class_name : String
  confidence : Rat
  bbox : BBox
  is_violation : Bool
  severity : String
deriving DecidableEq, Repr

/-- A zone definition dict: zone.get("zone_type") and zone["polygon"]. -/
structure Zone where
  zone_type : Option String
  polygon : List Pt
deriving DecidableEq, Repr

/-! ## Point-in-polygon (AIInferenceEngine._point_in_polygon) -/

/-- The edge pairs (polygon[i], polygon[j]) visited by the loop of
_point_in_polygon: j starts at n-1 and then trails i by one. -/
def edgePairs : List Pt → List (Pt × Pt)
  | [] => []
  | p :: ps => (p :: ps).zip (ps.getLastD p :: (p :: ps).dropLast)

/-- The loop body condition of _point_in_polygon:
((yi > y) != (yj > y)) and (x < (xj - xi) * (y - yi) / (yj - yi) + xi),
with the float arithmetic of the source modelled exactly over the
rationals. -/
def crossingCond (x y : Int) (pi pj : Pt) : Bool :=
  (decide (pi.y > y) != decide (pj.y > y)) &&
    decide ((x : Rat) <
      ((pj.x : Rat) - (pi.x : Rat)) * ((y : Rat) - (pi.y : Rat))
        / ((pj.y : Rat) - (pi.y : Rat)) + (pi.x : Rat))

/-- AIInferenceEngine._point_in_polygon: ray casting, toggling the inside
flag at every edge whose crossing condition holds. -/
def point_in_polygon (x y : Int) (polygon : List Pt) : Bool :=
  (edgePairs polygon).foldl
    (fun inside e => if crossingCond x y e.1 e.2 then !inside else inside)
    false

/-- Modelled from the spec: standard ray casting classifies the point as
inside exactly when the number of edges crossed by the rightward ray,
under the half-open comparison rule, is odd. -/
def rayCastOddCrossings (x y : Int) (polygon : List Pt) : Prop :=
  Odd ((edgePairs polygon).countP (fun e => crossingCond x y e.1 e.2))

instance (x y : Int) (polygon : List Pt) :
    Decidable (rayCastOddCrossings x y polygon) := by
  unfold rayCastOddCrossings
  infer_instance

/-! ## Zone breaches (AIInferenceEngine.detect_zones) -/

/-- The bounding-box center of a detection, with the floor division
of Python // . -/
def bboxCenterX (d : Detection) : Int := (d.bbox.x1 + d.bbox.x2).fdiv 2

def bboxCenterY (d : Detection) : Int := (d.bbox.y1 + d.bbox.y2).fdiv 2

/-- The synthetic detection appended by detect_zones for a person inside
an exclusion zone. -/
def mkZoneBreach (person : Detection) : Detection :=
  { class_name := "exclusion_zone_breach"
    confidence := 99 / 100
    bbox := person.bbox
    is_violation := true
    severity := "critical" }

/-- The guard of the detect_zones inner loop: the zone is of exclusion
type and the bbox center of the person lies inside its polygon. -/
def zoneHit (person : Detection) (zone : Zone) : Bool :=
  decide (zone.zone_type = some "exclusion") &&
    point_in_polygon (bboxCenterX person) (bboxCenterY person) zone.polygon

/-- Inner loop of detect_zones: for one person, append one breach per
exclusion zone whose polygon contains the bbox center. -/
def zoneLoop (person : Detection) (zones : List Zone) (acc : List Detection) :
    List Detection :=
  zones.foldl
    (fun acc2 zone =>
      if zoneHit person zone then acc2 ++ [mkZoneBreach person]
      else acc2)
    acc

/-- AIInferenceEngine.detect_zones: outer loop over person detections,
accumulating zone violations in order. -/
def detect_zones (detections : List Detection) (zones : List Zone) :
    List Detection :=
  (detections.filter (fun d => d.class_name = "person")).foldl
    (fun acc person => zoneLoop person zones acc) []

/-- Modelled from the spec: one synthetic exclusion_zone_breach detection
for each pair of a person detection and an exclusion zone containing the
bounding-box center, and nothing else. -/
def specZoneBreaches (detections : List Detection) (zones : List Zone) :
    List Detection :=
  (detections.filter (fun d => d.class_name = "person")).flatMap
    (fun person =>
      (zones.filter (zoneHit person)).map (fun _ => mkZoneBreach person))

/-! ## Inference (AIInferenceEngine.infer and _simulate_detections) -/

/-- The per-violation penalty fold of infer: critical 25, high 15,
medium 10, anything else 5, starting from 100. -/
def scoreFoldStep (s : Rat) (v : Detection) : Rat :=
  if v.severity = "critical" then s - 25
  else if v.severity = "high" then s - 15
  else if v.severity = "medium" then s - 10
  else s - 5

/-- The fields of InferenceResult that the pipeline reads. -/
structure InferenceResult where
  detections : List Detection
  violations_found : Nat
  safety_score : Rat
deriving Repr

/-- The AIInferenceEngine construction state read by infer. -/
structure AIInferenceEngine where
  model_path : String
  device : String
  confidence_threshold : Rat
deriving Repr

/-- AIInferenceEngine.infer on an already-produced detection list: counts
violations and computes the safety score by the penalty fold, floored at
0 by max. The engine state is passed but, as in the source, the
confidence threshold is not consulted. -/
def AIInferenceEngine.infer (_engine : AIInferenceEngine)
    (detections : List Detection) : InferenceResult :=
  let violations := detections.filter (fun d => d.is_violation)
  { detections := detections
    violations_found := violations.length
    safety_score := max 0 (violations.foldl scoreFoldStep 100) }

/-- The random draws consumed by _simulate_detections: the four randint
calls for the person bbox and the random() calls for confidences and
violation coin flips, each in [0, 1). -/
structure SimDraws where
  p1 : Int
  p2 : Int
  p3 : Int
  p4 : Int
  rcPerson : Rat
  rvHardhat : Rat
  rcHardhat : Rat
  rvVest : Rat
  rcVest : Rat
deriving Repr

/-- AIInferenceEngine._simulate_detections with the random draws made
explicit: always one person detection, then a no_hardhat violation when
the first coin flip exceeds 0.7 and a no_safety_vest violation when the
second exceeds 0.8. -/
def simulate_detections (d : SimDraws) : List Detection :=
  let personBbox : BBox := ⟨d.p1, d.p2, d.p3, d.p4⟩
  let base : List Detection :=
    [{ class_name := "person"
       confidence := 95 / 100 + d.rcPerson * (4 / 100)
       bbox := personBbox
       is_violation := false
       severity := "low" }]
  let withHardhat : List Detection :=
    if d.rvHardhat > 7 / 10 then
      base ++
        [{ class_name := "no_hardhat"
           confidence := 88 / 100 + d.rcHardhat * (10 / 100)
           bbox := ⟨d.p1 + 10, d.p2, d.p1 + 80, d.p2 + 60⟩
           is_violation := true
           severity := "high" }]
    else base
  if d.rvVest > 8 / 10 then
    withHardhat ++
      [{ class_name := "no_safety_vest"
         confidence := 85 / 100 + d.rcVest * (12 / 100)
         bbox := ⟨d.p1, d.p2 + 60, d.p3, d.p4 - 100⟩
         is_violation := true
         severity := "medium" }]
  else withHardhat

/-! ## Alert dispatcher (alert_service.py) -/

/-- AlertService.SEVERITY_PRIORITY.get(s, dflt): critical 4, high 3,
medium 2, low 1, otherwise the supplied default. -/
def severityPriorityGet (s : String) (dflt : Nat) : Nat :=
  if s = "critical" then 4
  else if s = "high" then 3
  else if s = "medium" then 2
  else if s = "low" then 1
  else dflt

/-- The cooldown key built by the f-string of alert_service.py:
camera_id, an underscore, then the detection type. -/
def cooldownKey (camera_id detection_type : String) : String :=
  camera_id ++ "_" ++ detection_type

/-- The dispatcher state read by _should_alert: the _recent_alerts map
(key to last-alert timestamp), the configured threshold and the cooldown
window in seconds. -/
structure AlertState where
  recent_alerts : String → Option Rat
  alert_threshold : String
  cooldown_seconds : Rat

/-- AlertService._should_alert at the current time now: threshold check
by severity priority, then cooldown check on the keyed last-alert time. -/
def should_alert (st : AlertState) (now : Rat)
    (camera_id detection_type severity : String) : Bool :=
  let threshold_priority := severityPriorityGet st.alert_threshold 2
  let alert_priority := severityPriorityGet severity 1
  if alert_priority < threshold_priority then false
  else
    match st.recent_alerts (cooldownKey camera_id detection_type) with
    | some last_alert =>
      if now - last_alert < st.cooldown_seconds then false else true
    | none => true

/-- The cooldown-map update performed by send_alert when an alert is
accepted: record now under the cooldown key. -/
def recordAlert (st : AlertState) (now : Rat)
    (camera_id detection_type : String) : AlertState :=
  { st with
    recent_alerts := fun k =>
      if k = cooldownKey camera_id detection_type then some now
      else st.recent_alerts k }

/-- The foldl of the Python builtin max over strings, as called by
_handle_violation on the severity strings of the violations; Python
compares strings lexicographically by code point, which is the linear
order on String. -/
def pyStrMax (l : List String) : String :=
  l.foldl max ""

/-! ## Camera orchestrator (camera_manager.py, one loop iteration) -/

/-- The observable outcome of one iteration of
CameraManager._process_camera on a frame: the detection list after the
zone check, and whether _handle_violation ran, which blurs the frame,
saves the evidence and calls alert_service.send_alert. -/
structure FrameOutcome where
  finalDetections : List Detection
  redacted : Bool
  persisted : Bool
  alertSubmitted : Bool
deriving Repr

/-- The zone-check and violation-handling part of one iteration of
CameraManager._process_camera: infer produces the result, zone breaches
are appended to result.detections, and _handle_violation runs exactly
when result.violations_found (set by infer, before the append) is
positive. -/
def process_camera_step (engine : AIInferenceEngine)
    (detections : List Detection) (zones : List Zone) : FrameOutcome :=
  let result := engine.infer detections
  let zone_violations := detect_zones result.detections zones
  let finalDetections := result.detections ++ zone_violations
  let handled := decide (result.violations_found > 0)
  { finalDetections := finalDetections
    redacted := handled
    persisted := handled
    alertSubmitted := handled }

/-- The overall severity computed by _handle_violation and passed to
send_alert: the Python max over the severity strings of the violating
detections of the final detection list. -/
def handleViolationSeverity (finalDetections : List Detection) : String :=
  pyStrMax ((finalDetections.filter (fun d => d.is_violation)).map
    (fun d => d.severity))

/-! ## Cloud sync queue (cloud_sync.py) -/

/-- A _pending_queue entry as built by send_alert and upload_evidence:
a kind string, an opaque payload and the enqueue timestamp. No attempt
counter exists on the item. -/
structure QueueItem where
  kind : String
  payload : Nat
  queued_at : Rat
deriving DecidableEq, Repr

/-- The kind-specific send routines of _process_queue, as success
predicates: true means the routine returned, false that it raised. -/
structure SendOutcomes where
  sendAlertOk : QueueItem → Bool
  uploadEvidenceOk : QueueItem → Bool
  sendMetricOk : QueueItem → Bool

/-- One iteration of the _process_queue loop body: the item lands in the
processed list when its dispatched routine does not raise; an item of
unknown kind matches no branch and is processed without any send. -/
def tryProcessItem (s : SendOutcomes) (item : QueueItem) : Bool :=
  if item.kind = "alert" then s.sendAlertOk item
  else if item.kind = "evidence" then s.uploadEvidenceOk item
  else if item.kind = "metric" then s.sendMetricOk item
  else true

/-- CloudSyncService._process_queue: walk the first ten queue items,
collect those whose send succeeded, then remove each collected item from
the queue (list remove deletes the first equal occurrence). -/
def process_queue (s : SendOutcomes) (queue : List QueueItem) :
    List QueueItem :=
  let processed := (queue.take 10).filter (tryProcessItem s)
  processed.foldl (fun q item => q.erase item) queue

/-- The three steps of _upload_evidence: obtain an upload URL unless one
was pre-supplied, PUT the bytes, then confirm; the routine succeeds only
when every step taken succeeds. -/
def uploadEvidenceSteps (hasPresigned urlOk putOk confirmOk : Bool) : Bool :=
  (hasPresigned || urlOk) && putOk && confirmOk

/-- The connectivity probe of _sync_cycle: either the GET raised, or it
returned an HTTP status code. -/
inductive ProbeResult where
  | raised : ProbeResult
  | status : Nat → ProbeResult
deriving DecidableEq, Repr

/-- The observable outcome of one _sync_cycle: the connectivity flag,
the queue afterwards, and the items that entered the processing loop
(delivery attempts). -/
structure SyncCycleOutcome where
  is_connected : Bool
  queue : List QueueItem
  attempted : List QueueItem
deriving Repr

/-- CloudSyncService._sync_cycle: on a probe exception set
_is_connected to false and return at once; on a response set
_is_connected to (status == 200) and then, whenever the queue is
nonempty, run _process_queue regardless of the probed status. -/
def sync_cycle (probe : ProbeResult) (s : SendOutcomes)
    (queue : List QueueItem) : SyncCycleOutcome :=
  match probe with
  | .raised => { is_connected := false, queue := queue, attempted := [] }
  | .status code =>
    let connected := decide (code = 200)
    if queue.isEmpty then
      { is_connected := connected, queue := queue, attempted := [] }
    else
      { is_connected := connected
        queue := process_queue s queue
        attempted := queue.take 10 }

/-! ## Retention sweep (local_storage.py) -/

/-- One date-partitioned day directory as seen by enforce_retention:
some d when the year/month/day names parse to the day number d (days
since the epoch, at midnight), none when strptime raises ValueError. -/
abbrev DayDir := Option Int

/-- The deletion test of enforce_retention: a parseable partition is
removed when its midnight datetime is strictly before
now - retention_days; an unparseable one is skipped. Datetimes are
rational day counts, so cutoff carries the time of day of now. -/
def partitionDeleted (now : Rat) (retention_days : Nat) : DayDir → Bool
  | none => false
  | some d => decide ((d : Rat) < now - (retention_days : Rat))

/-- LocalStorageService.enforce_retention over the flattened list of day
directories: walk the partitions, delete the stale ones counting each
removal, keep the rest untouched. Returns the surviving partitions and
the deleted count. -/
def enforce_retention (now : Rat) (retention_days : Nat) :
    List DayDir → List DayDir × Nat
  | [] => ([], 0)
  | p :: ps =>
    let rest := enforce_retention now retention_days ps
    if partitionDeleted now retention_days p then (rest.1, rest.2 + 1)
    else (p :: rest.1, rest.2)

/-! ## Spec-side helper definitions and concrete inputs -/

/-- The fixed per-violation penalty of the spec: critical 25, high 15,
medium 10, low or anything else 5. -/
def severityPenalty (s : String) : Rat :=
  if s = "critical" then 25
  else if s = "high" then 15
  else if s = "medium" then 10
  else 5

/-- The summed penalties of a list of violation severities. -/
def penaltySum (sevs : List String) : Rat :=
  (sevs.map severityPenalty).sum

/-- The severities of the violating detections of a detection list. -/
def violationSeverities (detections : List Detection) : List String :=
  (detections.filter (fun d => d.is_violation)).map (fun d => d.severity)

/-- A 4x4 axis-aligned square with a horizontal bottom edge, the
regression polygon for the on-edge and on-vertex ray-casting checks. -/
def squarePoly : List Pt := [⟨0, 0⟩, ⟨4, 0⟩, ⟨4, 4⟩, ⟨0, 4⟩]

/-- A non-violating person detection whose bounding-box center (2, 2)
lies inside squarePoly. -/
def person0 : Detection :=
  { class_name := "person"
    confidence := 96 / 100
    bbox := ⟨0, 0, 4, 4⟩
    is_violation := false
    severity := "low" }

/-- An exclusion zone over squarePoly. -/
def zone0 : Zone := { zone_type := some "exclusion", polygon := squarePoly }

/-- An engine constructed with the default confidence threshold 0.85. -/
def engineDefault : AIInferenceEngine :=
  { model_path := "yolov8n.pt", device := "cuda:0",
    confidence_threshold := 85 / 100 }

/-- An engine constructed with confidence threshold 0.95. -/
def engineStrict : AIInferenceEngine :=
  { model_path := "yolov8n.pt", device := "cuda:0",
    confidence_threshold := 95 / 100 }

/-- Random draws under which _simulate_detections emits the person plus a
no_safety_vest violation whose confidence comes out at exactly 0.85. -/
def drawsVest : SimDraws :=
  { p1 := 100, p2 := 50, p3 := 640, p4 := 360
    rcPerson := 0, rvHardhat := 0, rcHardhat := 0
    rvVest := 9 / 10, rcVest := 0 }

/-- The no_safety_vest detection produced by simulate_detections on
drawsVest. -/
def vestDet : Detection :=
  { class_name := "no_safety_vest"
    confidence := 85 / 100
    bbox := ⟨100, 110, 640, 260⟩
    is_violation := true
    severity := "medium" }

/-- A violating critical detection, for concrete severity lists. -/
def critDet : Detection :=
  { class_name := "forklift_proximity"
    confidence := 9 / 10
    bbox := ⟨0, 0, 10, 10⟩
    is_violation := true
    severity := "critical" }

/-- A violating medium detection, for concrete severity lists. -/
def medDet : Detection :=
  { class_name := "no_safety_vest"
    confidence := 9 / 10
    bbox := ⟨0, 0, 10, 10⟩
    is_violation := true
    severity := "medium" }

/-- A dispatcher state with no alert history, threshold high, cooldown
60 seconds. -/
def freshAlertState : AlertState :=
  { recent_alerts := fun _ => none
    alert_threshold := "high"
    cooldown_seconds := 60 }

/-- One queued evidence item. -/
def evItem : QueueItem := { kind := "evidence", payload := 7, queued_at := 0 }

/-- One queued alert item. -/
def alItem : QueueItem := { kind := "alert", payload := 3, queued_at := 1 }

/-- Send outcomes where every routine succeeds. -/
def deliverAll : SendOutcomes :=
  { sendAlertOk := fun _ => true
    uploadEvidenceOk := fun _ => true
    sendMetricOk := fun _ => true }

/-- Send outcomes where the evidence upload raises at the PUT step and
everything else succeeds. -/
def failEvidencePut : SendOutcomes :=
  { sendAlertOk := fun _ => true
    uploadEvidenceOk := fun _ => uploadEvidenceSteps true true false true
    sendMetricOk := fun _ => true }

/-! ## Helper lemmas -/

theorem foldl_toggle_eq_parity (p : Pt × Pt → Bool) (l : List (Pt × Pt))
    (b : Bool) :
    l.foldl (fun inside e => if p e then !inside else inside) b
      = (b != decide (Odd (l.countP p))) := by
  induction l generalizing b with
  | nil => simp
  | cons e t ih =>
    by_cases he : p e = true
    · simp only [List.foldl_cons, he, if_true, ih, List.countP_cons, he,
        if_true, Nat.odd_add_one]
      cases b <;> cases hd : decide (Odd (List.countP p t)) <;>
        simp_all [decide_not]
    · simp only [List.foldl_cons, he, if_false, ih, List.countP_cons, he]
      simp [he]

theorem le_foldl_max {α : Type} [LinearOrder α] (a : α) (l : List α) :
    a ≤ l.foldl max a := by
  induction l generalizing a with
  | nil => simp
  | cons h t ih => exact le_trans (le_max_left a h) (ih (max a h))

theorem foldl_max_mem {α : Type} [LinearOrder α] (a : α) (l : List α) :
    l.foldl max a = a ∨ l.foldl max a ∈ l := by
  induction l generalizing a with
  | nil => simp
  | cons h t ih =>
    rcases ih (max a h) with heq | hmem
    · rcases max_choice a h with hc | hc
      · left; simpa [hc] using heq
      · right; rw [List.foldl_cons, heq, hc]; exact List.mem_cons_self h t
    · right; exact List.mem_cons_of_mem h hmem

theorem le_foldl_max_of_mem {α : Type} [LinearOrder α] {x a : α}
    {l : List α} (h : x ∈ l) : x ≤ l.foldl max a := by
  induction l generalizing a with
  | nil => cases h
  | cons hd t ih =>
    rcases List.mem_cons.mp h with rfl | hx
    · exact le_trans (le_max_right a x) (le_foldl_max (max a x) t)
    · exact ih hx

theorem foldl_max_le {α : Type} [LinearOrder α] {a b : α} {l : List α}
    (ha : a ≤ b) (hl : ∀ x ∈ l, x ≤ b) : l.foldl max a ≤ b := by
  rcases foldl_max_mem a l with heq | hmem
  · simpa [heq] using ha
  · exact hl _ hmem

theorem scoreFoldStep_eq (s : Rat) (v : Detection) :
    scoreFoldStep s v = s - severityPenalty v.severity := by
  unfold scoreFoldStep severityPenalty
  split_ifs <;> rfl

theorem foldl_scoreFoldStep_eq (l : List Detection) (s : Rat) :
    l.foldl scoreFoldStep s = s - penaltySum (l.map (fun d => d.severity)) := by
  induction l generalizing s with
  | nil => simp [penaltySum]
  | cons v t ih =>
    simp only [List.foldl_cons, ih, scoreFoldStep_eq, penaltySum, List.map_cons,
      List.sum_cons]
    ring

theorem severityPenalty_pos (s : String) : 0 < severityPenalty s := by
  unfold severityPenalty
  split_ifs <;> norm_num

theorem penaltySum_nonneg (sevs : List String) : 0 ≤ penaltySum sevs := by
  unfold penaltySum
  apply List.sum_nonneg
  intro x hx
  rcases List.mem_map.mp hx with ⟨s, _, rfl⟩
  exact (severityPenalty_pos s).le

theorem zoneLoop_eq (person : Detection) (zones : List Zone)
    (acc : List Detection) :
    zoneLoop person zones acc =
      acc ++ (zones.filter (zoneHit person)).map
        (fun _ => mkZoneBreach person) := by
  induction zones generalizing acc with
  | nil => simp [zoneLoop]
  | cons z zs ih =>
    by_cases hz : zoneHit person z = true
    · simp [zoneLoop, hz, List.filter_cons] at ih ⊢
      simp [ih]
    · simp [zoneLoop, hz, List.filter_cons] at ih ⊢
      simp [ih]

theorem foldl_zoneLoop_eq (zones : List Zone) (persons : List Detection)
    (acc : List Detection) :
    persons.foldl (fun a person => zoneLoop person zones a) acc
      = acc ++ persons.flatMap (fun person =>
          (zones.filter (zoneHit person)).map
            (fun _ => mkZoneBreach person)) := by
  induction persons generalizing acc with
  | nil => simp
  | cons p rest ih =>
    simp only [List.foldl_cons, List.flatMap_cons]
    rw [zoneLoop_eq, ih, List.append_assoc]

theorem detect_zones_eq_spec (detections : List Detection)
    (zones : List Zone) :
    detect_zones detections zones = specZoneBreaches detections zones := by
  unfold detect_zones specZoneBreaches
  rw [foldl_zoneLoop_eq]
  simp

theorem count_foldl_erase (a : QueueItem) (ps q : List QueueItem) :
    List.count a (ps.foldl (fun acc j => acc.erase j) q)
      = List.count a q - List.count a ps := by
  induction ps generalizing q with
  | nil => simp
  | cons j ps ih =>
    by_cases hj : j = a
    · subst hj
      simp only [List.foldl_cons, ih, List.count_erase_self, List.count_cons_self]
      omega
    · have hne : a ≠ j := fun h => hj h.symm
      simp only [List.foldl_cons, ih, List.count_erase_of_ne hne,
        List.count_cons_of_ne hne]

theorem mem_processed_of_filter {s : SendOutcomes} {queue : List QueueItem}
    {item : QueueItem} (hmem : item ∈ queue.take 10)
    (hok : tryProcessItem s item = true) :
    item ∈ (queue.take 10).filter (tryProcessItem s) :=
  List.mem_filter.mpr ⟨hmem, hok⟩

theorem enforce_retention_eq (now : Rat) (retention_days : Nat)
    (parts : List DayDir) :
    enforce_retention now retention_days parts
      = (parts.filter (fun p => ! partitionDeleted now retention_days p),
         (parts.filter (partitionDeleted now retention_days)).length) := by
  induction parts with
  | nil => simp [enforce_retention]
  | cons p ps ih =>
    by_cases hp : partitionDeleted now retention_days p = true
    · simp [enforce_retention, ih, hp, List.filter_cons]
    · simp [enforce_retention, ih, hp, List.filter_cons]

theorem append_sep_inj :
    ∀ {l1 l2 t1 t2 : List Char}, '_' ∉ l1 → '_' ∉ l2 →
      l1 ++ '_' :: t1 = l2 ++ '_' :: t2 → l1 = l2 := by
  intro l1
  induction l1 with
  | nil =>
    intro l2 t1 t2 _ h2 he
    cases l2 with
    | nil => rfl
    | cons b bs =>
      exfalso
      simp only [List.nil_append, List.cons_append, List.cons.injEq] at he
      exact h2 (he.1 ▸ List.mem_cons_self b bs)
  | cons a as ih =>
    intro l2 t1 t2 h1 h2 he
    cases l2 with
    | nil =>
      exfalso
      simp only [List.cons_append, List.nil_append, List.cons.injEq] at he
      exact h1 (he.1 ▸ List.mem_cons_self a as)
    | cons b bs =>
      simp only [List.cons_append, List.cons.injEq] at he
      have := ih (fun h => h1 (List.mem_cons_of_mem a h))
        (fun h => h2 (List.mem_cons_of_mem b h)) he.2
      simp [he.1, this]

theorem cooldownKey_ne {c1 t1 c2 t2 : String}
    (h1 : '_' ∉ c1.data) (h2 : '_' ∉ c2.data) (hne : c1 ≠ c2) :
    cooldownKey c2 t2 ≠ cooldownKey c1 t1 := by
  intro h
  apply hne
  have hd := congrArg String.data h
  simp only [cooldownKey, String.data_append, List.append_assoc,
    List.singleton_append] at hd
  exact String.ext (append_sep_inj h2 h1 hd).symm

/-! ## Claim theorems -/

/-- C9: the point-in-polygon test of _point_in_polygon is standard ray
casting over the ordered vertex list: the point is classified inside
exactly when the number of edges meeting the half-open crossing
condition is odd, so each crossing is counted exactly once; an edge with
equal endpoint y-coordinates (a horizontal edge) can never be counted,
and a point whose y-coordinate equals a horizontal edge or a vertex of
the regression square is classified deterministically per the half-open
rule: the bottom edge and the bottom-left vertex are inside, the top
edge and the bottom-right vertex are outside. -/
theorem c9_ray_cast_half_open :
    (∀ (x y : Int) (polygon : List Pt),
      point_in_polygon x y polygon
        = decide (rayCastOddCrossings x y polygon)) ∧
    (∀ (x y : Int) (p q : Pt), p.y = q.y → crossingCond x y p q = false) ∧
    point_in_polygon 2 0 squarePoly = true ∧
    point_in_polygon 2 4 squarePoly = false ∧
    point_in_polygon 0 0 squarePoly = true ∧
    point_in_polygon 4 0 squarePoly = false := by
  refine ⟨?_, ?_, ?_, ?_, ?_, ?_⟩
  · intro x y polygon
    unfold point_in_polygon rayCastOddCrossings
    rw [foldl_toggle_eq_parity (fun e => crossingCond x y e.1 e.2)]
    simp
  · intro x y p q h
    simp [crossingCond, h]
  all_goals
    norm_num [point_in_polygon, edgePairs, crossingCond, squarePoly,
      List.zip, List.zipWith]

/-- C9 witness: the horizontal-edge conjunct applied to the bottom edge
of the regression square at a point on that edge. -/
theorem c9_ray_cast_half_open_witness :
    crossingCond 2 0 ⟨0, 0⟩ ⟨4, 0⟩ = false :=
  c9_ray_cast_half_open.2.1 2 0 ⟨0, 0⟩ ⟨4, 0⟩ rfl

/-- C8 counterexample: on a person detection inside an exclusion zone,
detect_zones returns exactly one synthetic breach detection, but its
confidence is 0.99, not 1.0 as the claim states. -/
theorem c8_breach_confidence_not_one :
    detect_zones [person0] [zone0] = [mkZoneBreach person0] ∧
    (mkZoneBreach person0).confidence = 99 / 100 ∧
    ((99 : Rat) / 100 = 1) = False := by
  refine ⟨?_, rfl, by norm_num⟩
  norm_num [detect_zones, zoneLoop, zoneHit, person0, zone0, point_in_polygon,
    edgePairs, crossingCond, squarePoly, List.zip, List.zipWith, bboxCenterX,
    bboxCenterY, List.filter, Int.fdiv, mkZoneBreach]

/-- C8 amended: detect_zones returns exactly one synthetic
exclusion_zone_breach detection, with severity critical, confidence 0.99
(not 1.0), is_violation true and the bounding box of the person, for
each pair of a person detection and an exclusion-type zone whose polygon
contains the center of the bounding box of the person, and returns no
other detections. -/
theorem c8_detect_zones_characterization (detections : List Detection)
    (zones : List Zone) (person : Detection) :
    detect_zones detections zones = specZoneBreaches detections zones ∧
    (mkZoneBreach person).class_name = "exclusion_zone_breach" ∧
    (mkZoneBreach person).severity = "critical" ∧
    (mkZoneBreach person).confidence = 99 / 100 ∧
    (mkZoneBreach person).is_violation = true ∧
    (mkZoneBreach person).bbox = person.bbox :=
  ⟨detect_zones_eq_spec detections zones, rfl, rfl, rfl, rfl, rfl⟩

/-- C2: for every detection list, the safety score returned by infer
equals 100 minus the summed fixed per-violation penalties, floored at 0
by max, and lies in [0, 100] — including the floored lists whose penalty
sum reaches or exceeds 100; appending one more violating detection
strictly decreases the score exactly as long as the floor has not been
reached. -/
theorem c2_safety_score (engine : AIInferenceEngine)
    (dets : List Detection) (v : Detection)
    (hv : v.is_violation = true) :
    (engine.infer dets).safety_score
        = max 0 (100 - penaltySum (violationSeverities dets)) ∧
    0 ≤ (engine.infer dets).safety_score ∧
    (engine.infer dets).safety_score ≤ 100 ∧
    (0 < (engine.infer dets).safety_score →
      (engine.infer (dets ++ [v])).safety_score
        < (engine.infer dets).safety_score) := by
  have hscore : ∀ l : List Detection,
      (engine.infer l).safety_score
        = max 0 (100 - penaltySum (violationSeverities l)) := by
    intro l
    unfold AIInferenceEngine.infer violationSeverities
    dsimp only
    rw [foldl_scoreFoldStep_eq]
  have hP := penaltySum_nonneg (violationSeverities dets)
  refine ⟨hscore dets, ?_, ?_, ?_⟩
  · rw [hscore dets]; exact le_max_left 0 _
  · rw [hscore dets]
    apply max_le (by norm_num)
    linarith
  · intro hpos
    have hsplit : violationSeverities (dets ++ [v])
        = violationSeverities dets ++ [v.severity] := by
      unfold violationSeverities
      simp [List.filter_append, hv]
    have hpen : penaltySum (violationSeverities (dets ++ [v]))
        = penaltySum (violationSeverities dets)
          + severityPenalty v.severity := by
      rw [hsplit]
      unfold penaltySum
      simp
    have hold : (engine.infer dets).safety_score
        = 100 - penaltySum (violationSeverities dets) := by
      rw [hscore dets] at hpos ⊢
      rcases max_choice (0 : Rat)
        (100 - penaltySum (violationSeverities dets)) with hm | hm
      · rw [hm] at hpos; exact absurd hpos (lt_irrefl 0)
      · exact hm
    have hposraw : 0 < 100 - penaltySum (violationSeverities dets) := by
      rw [hold] at hpos; exact hpos
    rw [hscore (dets ++ [v]), hpen, hold]
    have hpv := severityPenalty_pos v.severity
    apply max_lt hposraw
    linarith

/-- C2 witness: the strict-decrease conjunct applied to the empty
detection list and one critical violation. -/
theorem c2_safety_score_witness :
    0 < (engineDefault.infer []).safety_score ∧
    (engineDefault.infer ([] ++ [critDet])).safety_score
        < (engineDefault.infer []).safety_score := by
  have hpos : 0 < (engineDefault.infer []).safety_score := by
    norm_num [AIInferenceEngine.infer]
  exact ⟨hpos, (c2_safety_score engineDefault [] critDet rfl).2.2.2 hpos⟩

/-- C1 failing input: a frame whose only violation is an appended
zone-breach detection. The final detection list does contain a violation,
but the frame is neither redacted nor persisted and no alert request is
submitted, because the handling guard reads violations_found as computed
by infer before the zone breaches were appended. -/
theorem c1_zone_breach_frame_not_handled :
    ((process_camera_step engineDefault [person0] [zone0]).finalDetections.any
        (fun d => d.is_violation)) = true ∧
    (process_camera_step engineDefault [person0] [zone0]).redacted = false ∧
    (process_camera_step engineDefault [person0] [zone0]).persisted = false ∧
    (process_camera_step engineDefault [person0] [zone0]).alertSubmitted
        = false := by
  refine ⟨?_, ?_, ?_, ?_⟩ <;>
    norm_num [process_camera_step, AIInferenceEngine.infer, detect_zones,
      zoneLoop, zoneHit, person0, zone0, point_in_polygon, edgePairs,
      crossingCond, squarePoly, List.zip, List.zipWith, bboxCenterX,
      bboxCenterY, List.filter, Int.fdiv, mkZoneBreach]

/-- C7 failing input: an engine constructed with confidence threshold
0.95, and random draws under which the simulated no-safety-vest
detection has confidence 0.85. The detection is returned by infer even
though its confidence is below the construction-time threshold, because
the simulated inference path never consults the threshold. -/
theorem c7_threshold_not_enforced :
    vestDet ∈ (engineStrict.infer (simulate_detections drawsVest)).detections ∧
    vestDet.confidence < engineStrict.confidence_threshold := by
  constructor
  · norm_num [AIInferenceEngine.infer, simulate_detections, drawsVest, vestDet,
      engineStrict]
  · norm_num [vestDet, engineStrict]

/-- C3: the overall severity forwarded by _handle_violation is the
Python max of the severity strings, which is the lexicographic maximum,
ordering medium above low above high above critical; if the violations
include both a critical and a medium violation the forwarded severity is
medium, and with the dispatcher threshold configured to high that alert
is rejected by the threshold check. -/
theorem c3_lexicographic_severity (dets : List Detection) (st : AlertState)
    (now : Rat) (camera_id detection_type : String)
    (hall : ∀ d ∈ dets, d.is_violation = true →
      d.severity ∈ (["critical", "high", "medium", "low"] : List String))
    (_hcrit : ∃ d ∈ dets, d.is_violation = true ∧ d.severity = "critical")
    (hmed : ∃ d ∈ dets, d.is_violation = true ∧ d.severity = "medium")
    (hth : st.alert_threshold = "high") :
    (("critical" : String) < "high" ∧ ("high" : String) < "low" ∧
      ("low" : String) < "medium") ∧
    (∀ s ∈ violationSeverities dets, s ≤ handleViolationSeverity dets) ∧
    handleViolationSeverity dets = "medium" ∧
    should_alert st now camera_id detection_type
      (handleViolationSeverity dets) = false := by
  have horder : (("critical" : String) < "high" ∧ ("high" : String) < "low" ∧
      ("low" : String) < "medium") := by
    refine ⟨?_, ?_, ?_⟩ <;> (rw [String.lt_iff_toList_lt]; decide)
  have hdef : handleViolationSeverity dets
      = (violationSeverities dets).foldl max "" := rfl
  have hmax : ∀ s ∈ violationSeverities dets,
      s ≤ handleViolationSeverity dets := by
    intro s hs
    rw [hdef]
    exact le_foldl_max_of_mem hs
  have hsev_mem : ∀ s ∈ violationSeverities dets,
      s ∈ (["critical", "high", "medium", "low"] : List String) := by
    intro s hs
    rcases List.mem_map.mp hs with ⟨d, hd, rfl⟩
    rcases List.mem_filter.mp hd with ⟨hdd, hviol⟩
    exact hall d hdd hviol
  have hmed_mem : "medium" ∈ violationSeverities dets := by
    rcases hmed with ⟨d, hd, hviol, hsev⟩
    exact List.mem_map.mpr ⟨d, List.mem_filter.mpr ⟨hd, hviol⟩, hsev⟩
  have hmedium : handleViolationSeverity dets = "medium" := by
    apply le_antisymm
    · rw [hdef]
      apply foldl_max_le
      · rw [String.le_iff_toList_le]; decide
      · intro x hx
        have hx4 := hsev_mem x hx
        simp only [List.mem_cons, List.not_mem_nil, or_false] at hx4
        rcases hx4 with rfl | rfl | rfl | rfl <;>
          rw [String.le_iff_toList_le] <;> decide
    · exact hmax "medium" hmed_mem
  refine ⟨horder, hmax, hmedium, ?_⟩
  rw [hmedium]
  unfold should_alert
  rw [hth]
  rfl

/-- C3 witness: a frame with one critical and one medium violation,
submitted against a fresh dispatcher with threshold high. -/
theorem c3_lexicographic_severity_witness :
    handleViolationSeverity [critDet, medDet] = "medium" ∧
    should_alert freshAlertState 0 "CAM-7" "forklift_proximity"
      (handleViolationSeverity [critDet, medDet]) = false := by
  have h := c3_lexicographic_severity [critDet, medDet] freshAlertState 0
    "CAM-7" "forklift_proximity"
    (by
      intro d hd _
      simp only [List.mem_cons, List.not_mem_nil, or_false] at hd
      rcases hd with rfl | rfl <;> simp [critDet, medDet])
    ⟨critDet, List.mem_cons_self _ _, rfl, rfl⟩
    ⟨medDet, List.mem_cons_of_mem _ (List.mem_cons_self _ _), rfl, rfl⟩
    rfl
  exact ⟨h.2.2.1, h.2.2.2⟩

/-- C4 counterexample: the cooldown key is the underscore-joined string,
so the accepted alert of camera cam_1 with type x suppresses, within the
cooldown window, a submission from the distinct camera cam with type
1_x. -/
theorem c4_cooldown_key_collision :
    should_alert (recordAlert freshAlertState 0 "cam_1" "x") 10 "cam" "1_x"
      "critical" = false ∧
    ("cam_1" : String) ≠ "cam" := by
  constructor
  · unfold should_alert recordAlert freshAlertState
    norm_num [cooldownKey, severityPriorityGet,
      show ¬ (("high" : String) = "critical") from by decide,
      show (("cam" ++ "_" ++ "1_x" : String) = "cam_1" ++ "_" ++ "x")
        from by decide]
  · decide

/-- C4 amended: cooldown suppression is keyed on the concatenation of
camera id, an underscore, and the primary violation type; recording an
accepted alert of one camera never changes the cooldown decision for a
submission from a different camera provided neither camera id contains
an underscore (distinct camera ids with underscores can collide, as the
counterexample shows). -/
theorem c4_cooldown_camera_scoped (st : AlertState) (now now2 : Rat)
    (c1 t1 c2 t2 sev : String)
    (h1 : '_' ∉ c1.data) (h2 : '_' ∉ c2.data) (hne : c1 ≠ c2) :
    should_alert (recordAlert st now c1 t1) now2 c2 t2 sev
      = should_alert st now2 c2 t2 sev := by
  unfold should_alert recordAlert
  simp [cooldownKey_ne h1 h2 hne]

/-- C4 witness: two underscore-free camera ids, the first having just
fired an accepted alert. -/
theorem c4_cooldown_camera_scoped_witness :
    should_alert (recordAlert freshAlertState 0 "camA" "x") 10 "camB" "x"
      "critical"
    = should_alert freshAlertState 10 "camB" "x" "critical" :=
  c4_cooldown_camera_scoped freshAlertState 0 10 "camA" "x" "camB" "x"
    "critical" (by decide) (by decide) (by decide)

/-- C5 counterexample: an evidence item whose upload fails at the PUT
step survives the processing cycle as exactly the same queue entry: the
queue items of the source carry no attempt counter, so nothing is
incremented. -/
theorem c5_failed_item_unchanged :
    process_queue failEvidencePut [evItem] = [evItem] ∧
    uploadEvidenceSteps true true false true = false := by
  constructor
  · rfl
  · rfl

/-- C5 amended: per processing cycle, a queue item present once in the
drained batch is removed exactly once when its send routine succeeds,
and remains in the queue as the unchanged entry when its send routine
raises; the evidence routine raises whenever its PUT step fails. The
items carry no attempt counter, so a failed item is simply retained
as-is. -/
theorem c5_queue_state_machine (s : SendOutcomes) (queue : List QueueItem)
    (item : QueueItem) (hmem : item ∈ queue.take 10)
    (huniq : queue.count item = 1) :
    (tryProcessItem s item = false →
      List.count item (process_queue s queue) = 1) ∧
    (tryProcessItem s item = true →
      List.count item (process_queue s queue) = 0) ∧
    (∀ hasPresigned urlOk confirmOk : Bool,
      uploadEvidenceSteps hasPresigned urlOk false confirmOk = false) := by
  have hcount : List.count item (process_queue s queue)
      = List.count item queue
        - List.count item ((queue.take 10).filter (tryProcessItem s)) := by
    unfold process_queue
    exact count_foldl_erase item _ queue
  refine ⟨?_, ?_, ?_⟩
  · intro hfail
    have hzero : List.count item ((queue.take 10).filter (tryProcessItem s))
        = 0 := by
      apply List.count_eq_zero.mpr
      intro hin
      have := (List.mem_filter.mp hin).2
      rw [hfail] at this
      exact Bool.false_ne_true this
    rw [hcount, hzero, huniq]
  · intro hok
    have hone : List.count item ((queue.take 10).filter (tryProcessItem s))
        = 1 := by
      have hle : List.count item ((queue.take 10).filter (tryProcessItem s))
          ≤ List.count item queue := by
        apply List.Sublist.count_le
        exact (List.filter_sublist _).trans (List.take_sublist 10 queue)
      have hge : 1 ≤ List.count item
          ((queue.take 10).filter (tryProcessItem s)) :=
        List.count_pos_iff.mpr (mem_processed_of_filter hmem hok)
      omega
    rw [hcount, hone, huniq]
  · intro hasPresigned urlOk confirmOk
    unfold uploadEvidenceSteps
    simp

/-- C5 witness: a two-item queue; the evidence item is removed exactly
once under all-success sends and retained under a failing PUT. -/
theorem c5_queue_state_machine_witness :
    List.count evItem (process_queue deliverAll [evItem, alItem]) = 0 ∧
    List.count evItem (process_queue failEvidencePut [evItem, alItem])
      = 1 := by
  have hmem : evItem ∈ ([evItem, alItem] : List QueueItem).take 10 :=
    List.mem_cons_self _ _
  have huniq : ([evItem, alItem] : List QueueItem).count evItem = 1 := by
    decide
  exact ⟨(c5_queue_state_machine deliverAll [evItem, alItem] evItem hmem
      huniq).2.1 rfl,
    (c5_queue_state_machine failEvidencePut [evItem, alItem] evItem hmem
      huniq).1 rfl⟩

/-- C6 counterexample: a sync cycle whose connectivity probe returns 503
still drains the queue: the cycle marks the service disconnected yet
attempts and performs delivery of the queued item. -/
theorem c6_non200_still_drains :
    sync_cycle (.status 503) deliverAll [evItem]
      = { is_connected := false, queue := [], attempted := [evItem] } := by
  rfl

/-- C6 amended: the sync cycle aborts without attempting delivery only
when the connectivity probe raises; when the probe returns a non-200
status the cycle records the service as disconnected but still processes
the nonempty pending queue. -/
theorem c6_cycle_abort_semantics (s : SendOutcomes)
    (queue : List QueueItem) (code : Nat)
    (hc : code ≠ 200) (hq : queue ≠ []) :
    sync_cycle .raised s queue
        = { is_connected := false, queue := queue, attempted := [] } ∧
    (sync_cycle (.status code) s queue).is_connected = false ∧
    (sync_cycle (.status code) s queue).attempted = queue.take 10 ∧
    (sync_cycle (.status code) s queue).queue = process_queue s queue := by
  have hne : queue.isEmpty = false := by
    cases queue with
    | nil => exact absurd rfl hq
    | cons a t => rfl
  refine ⟨rfl, ?_, ?_, ?_⟩ <;> simp [sync_cycle, hne, hc]

/-- C6 witness: the probe-raised and status-503 legs on a one-item
queue. -/
theorem c6_cycle_abort_semantics_witness :
    sync_cycle .raised deliverAll [evItem]
        = { is_connected := false, queue := [evItem], attempted := [] } ∧
    (sync_cycle (.status 503) deliverAll [evItem]).is_connected = false ∧
    (sync_cycle (.status 503) deliverAll [evItem]).attempted
        = [evItem].take 10 ∧
    (sync_cycle (.status 503) deliverAll [evItem]).queue
        = process_queue deliverAll [evItem] :=
  c6_cycle_abort_semantics deliverAll [evItem] 503 (by decide)
    (List.cons_ne_nil _ _)

/-- C10 counterexample: with the sweep running at noon of day 100 and a
thirty-day retention window, the partition of day 70 sits exactly at
the retention boundary (100 - 70 = 30 days old), yet enforce_retention
deletes it and reports one removal, because the cutoff keeps the time
of day of the sweep. -/
theorem c10_boundary_partition_deleted :
    enforce_retention (201 / 2) 30 [some 70] = ([], 1) ∧
    (201 : Rat) / 2 = 100 + 1 / 2 ∧
    (100 : Int) - 70 = 30 := by
  refine ⟨?_, by norm_num, by norm_num⟩
  norm_num [enforce_retention, partitionDeleted]

/-- C10 amended: enforce_retention deletes exactly the parseable
partitions whose midnight datetime is strictly before now minus
retention_days and returns their count; surviving partitions form a
sublist of the original (none is touched even partially); a second run
over the survivors deletes nothing (idempotence); and a partition at
the boundary is preserved exactly when its date is not strictly older
than the cutoff instant, for example whenever the sweep runs at
midnight. -/
theorem c10_retention_characterization (now : Rat) (r : Nat)
    (parts : List DayDir) (d : Int)
    (hkeep : ¬ ((d : Rat) < now - (r : Rat))) (hdmem : some d ∈ parts) :
    (enforce_retention now r parts).1
        = parts.filter (fun p => ! partitionDeleted now r p) ∧
    (enforce_retention now r parts).2
        = (parts.filter (partitionDeleted now r)).length ∧
    (enforce_retention now r parts).1.Sublist parts ∧
    enforce_retention now r (enforce_retention now r parts).1
        = ((enforce_retention now r parts).1, 0) ∧
    some d ∈ (enforce_retention now r parts).1 := by
  have he := enforce_retention_eq now r parts
  have h1 : (enforce_retention now r parts).1
      = parts.filter (fun p => ! partitionDeleted now r p) := by
    rw [he]
  have h2 : (enforce_retention now r parts).2
      = (parts.filter (partitionDeleted now r)).length := by
    rw [he]
  refine ⟨h1, h2, ?_, ?_, ?_⟩
  · rw [h1]; exact List.filter_sublist parts
  · rw [h1, enforce_retention_eq]
    have hfix : List.filter (fun p => ! partitionDeleted now r p)
        (parts.filter (fun p => ! partitionDeleted now r p))
        = parts.filter (fun p => ! partitionDeleted now r p) := by
      apply List.filter_eq_self.mpr
      intro a ha
      exact (List.mem_filter.mp ha).2
    have hnil : List.filter (partitionDeleted now r)
        (parts.filter (fun p => ! partitionDeleted now r p)) = [] := by
      apply List.filter_eq_nil_iff.mpr
      intro a ha
      have hka := (List.mem_filter.mp ha).2
      simp only [Bool.not_eq_true'] at hka
      simp [hka]
    rw [hfix, hnil]
    rfl
  · rw [h1]
    apply List.mem_filter.mpr
    refine ⟨hdmem, ?_⟩
    simp [partitionDeleted, hkeep]

/-- C10 witness: a midnight sweep on day 100 with a thirty-day window
preserves the boundary partition of day 70. -/
theorem c10_retention_characterization_witness :
    some (70 : Int) ∈ (enforce_retention 100 30 [some 70, some 69]).1 :=
  (c10_retention_characterization 100 30 [some 70, some 69] 70
    (by norm_num) (List.mem_cons_self _ _)).2.2.2.2

end IsoGuard
